import Mathlib

/-!
Verification of the store repository (a uniform key-value storage abstraction
with a durable Postgres backend and a Redis cache backend) against its
natural-language specification.

Shallow embedding conventions:
* instants of time are integers (nanoseconds since the epoch); the Go zero
  value of time.Time is embedded as 0;
* the Postgres table is a list of Record rows; key uniqueness (the primary
  key constraint) is the predicate keysUnique;
* Go errors are the inductive StoreErr; fallible operations return Except
  or pair their result with an Option StoreErr;
* RFC3339 formatting of an instant is embedded as an injective rendering of
  the integer instant (the claims concern which instant is formatted and
  whether a field is present, never the textual format itself).
-/

namespace StoreSpec

/-- Error values surfaced by the store, from the error declarations of the
facade file and the formatted key-not-found errors of the adapters. -/
inductive StoreErr where
  | providerNotFound
  | keyNotFound (key : String)
  | keyAlreadyExists
  | connError (msg : String)
deriving DecidableEq, Repr

/-- Embeds Go time.Time.Format(time.RFC3339) as an injective rendering of
the instant. -/
def formatRFC3339 (t : Int) : String := toString t

/-- Record, the canonical row type of the durable backend
(src/postgres.go): key (primary key), value, is_ttl_based, expires_at, ts. -/
structure Record where
  key : String
  value : String
  isTTLBased : Bool
  expiresAt : Int
  timestamp : Int
deriving DecidableEq, Repr

/-- TsMeta, the metadata shape returned by Get on both backends; in Go both
fields are strings and ExpiresAt is the empty string when absent. -/
structure TsMeta where
  CreatedAt : String
  ExpiresAt : String
deriving DecidableEq, Repr

/-- One element of a paginated query response (Data, CreatedAt, ExpiresAt). -/
structure QueryResponse where
  Data : String
  ExpiresAt : String
  CreatedAt : String
deriving DecidableEq, Repr

/-- Paginated query response: the page of results plus the total matching
count computed before pagination. -/
structure QueryPaginatedResponse where
  QueryResponse : List QueryResponse
  TotalRecords : Nat
deriving DecidableEq, Repr

/-- Key uniqueness invariant of the Postgres table (key is the primary key). -/
def keysUnique (db : List Record) : Prop := (db.map Record.key).Nodup

instance (db : List Record) : Decidable (keysUnique db) := by
  unfold keysUnique; infer_instance

/-- Embeds the SQL lookup SELECT ... WHERE key = ? LIMIT 1 on the table. -/
def findRecord (db : List Record) (k : String) : Option Record :=
  db.find? (fun r => r.key == k)

/-- Embeds INSERT ... ON CONFLICT (key) DO UPDATE SET value, is_ttl_based,
expires_at, ts on a key-unique table: replaces the row with the same key in
place, or appends the new row. -/
def upsert (r : Record) : List Record → List Record
  | [] => [r]
  | x :: xs => if x.key == r.key then r :: xs else x :: upsert r xs

namespace PgStore

/-- PgStore.Get (src/postgres.go lines 296-315): looks the key up and, on a
hit, returns the value with CreatedAt from the stored timestamp and
ExpiresAt present exactly when IsTTLBased; on a miss, a key-not-found
error. The source performs no expiry check: the current time is not even an
input of the lookup. -/
def Get (db : List Record) (key : String) : Except StoreErr (String × TsMeta) :=
  match findRecord db key with
  | none => .error (.keyNotFound key)
  | some r =>
      .ok (r.value,
        { CreatedAt := formatRFC3339 r.timestamp,
          ExpiresAt := if r.isTTLBased then formatRFC3339 r.expiresAt else "" })

/-- PgStore.Set (src/postgres.go lines 317-337): upsert of a row with
IsTTLBased false, ExpiresAt the zero value and Timestamp now; the
ON CONFLICT DO UPDATE write is total (it never reports a duplicate key). -/
def Set (db : List Record) (key value : String) (now : Int) : List Record :=
  upsert { key := key, value := value, isTTLBased := false,
           expiresAt := 0, timestamp := now } db

/-- PgStore.SetWithTTL (src/postgres.go lines 339-361): upsert of a row with
IsTTLBased true, ExpiresAt now + duration and Timestamp now. -/
def SetWithTTL (db : List Record) (key value : String) (duration now : Int) :
    List Record :=
  upsert { key := key, value := value, isTTLBased := true,
           expiresAt := now + duration, timestamp := now } db

/-- PgStore.Delete (src/postgres.go lines 363-374): deletes every row with
the key; when RowsAffected is zero it returns a key-not-found error. -/
def Delete (db : List Record) (key : String) : List Record × Option StoreErr :=
  let remaining := db.filter (fun r => !(r.key == key))
  (remaining,
    if remaining.length == db.length then some (.keyNotFound key) else none)

/-- PgStore.cleanExpiredRecords (src/postgres.go lines 266-279): one sweep
pass, DELETE WHERE is_ttl_based = true AND expires_at <= now. -/
def cleanExpiredRecords (db : List Record) (now : Int) : List Record :=
  db.filter (fun r => !(r.isTTLBased && decide (r.expiresAt ≤ now)))

end PgStore

/-- One entry of the Redis engine state. The createdAt field is a ghost
field recording the actual write instant (Redis itself keeps no creation
time, which is exactly what the metadata claims are about); expiresAt is
the engine-native expiry, absent for entries written without TTL. -/
structure RedisEntry where
  key : String
  value : String
  createdAt : Int
  expiresAt : Option Int
deriving DecidableEq, Repr

namespace RedisStore

/-- Engine-native expiry of Redis: an entry whose expiry instant has been
reached is absent from every lookup. -/
def lookup (db : List RedisEntry) (now : Int) (key : String) :
    Option RedisEntry :=
  match db.find? (fun e => e.key == key) with
  | none => none
  | some e =>
      match e.expiresAt with
      | none => some e
      | some t => if t ≤ now then none else some e

/-- Remaining time to live as the Redis TTL command reports it: -1 for a
key without expiry, otherwise the remaining duration. -/
def ttlOf (e : RedisEntry) (now : Int) : Int :=
  match e.expiresAt with
  | none => -1
  | some t => t - now

/-- RedisStore.Get (src/redis.go lines 73-96): engine lookup (missing or
natively expired keys give a key-not-found error), then CreatedAt is
synthesized from time.Now() at read time and ExpiresAt from now + TTL when
the remaining TTL is positive. -/
def Get (db : List RedisEntry) (now : Int) (key : String) :
    Except StoreErr (String × TsMeta) :=
  match lookup db now key with
  | none => .error (.keyNotFound key)
  | some e =>
      .ok (e.value,
        { CreatedAt := formatRFC3339 now,
          ExpiresAt :=
            if 0 < ttlOf e now then formatRFC3339 (now + ttlOf e now)
            else "" })

/-- RedisStore.Delete (src/redis.go lines 106-108): DEL followed by Err();
DEL reports the number of removed keys but no error when the key is absent,
so the operation never returns a key-not-found error. -/
def Delete (db : List RedisEntry) (key : String) :
    List RedisEntry × Option StoreErr :=
  (db.filter (fun e => !(e.key == key)), none)

end RedisStore

/-- Sample record used by concrete witnesses. -/
def sampleRec : Record :=
  { key := "k", value := "v", isTTLBased := false,
    expiresAt := 0, timestamp := 0 }

/-- Control mode of the cleanup routine: waiting in the select (idle),
executing cleanExpiredRecords (running), or returned (stopped). -/
inductive Mode where
  | idle
  | running
  | stopped
deriving DecidableEq, Repr

/-- Control state of the cleanup goroutine of src/postgres.go lines
249-264 together with its two input channels: tickPending is whether the
ticker channel holds a pending tick, done is whether CloseConn has
cancelled the context (src/postgres.go line 377), and sweeps counts the
sweep passes begun. -/
structure TaskState where
  mode : Mode
  tickPending : Bool
  done : Bool
  sweeps : Nat
deriving DecidableEq, Repr

/-- Transitions of the cleanup goroutine itself (the select statement and
the return from a sweep). When both channels are ready, a Go select
chooses either case, so selectTick carries no requirement that done is
false. The finish transition carries the outcome of cleanExpiredRecords:
an error is only logged, so the transition is the same for both outcomes
and the loop continues in idle. -/
inductive TaskStep : TaskState → TaskState → Prop
  | selectTick (s : TaskState) :
      s.mode = .idle → s.tickPending = true →
      TaskStep s ⟨.running, false, s.done, s.sweeps + 1⟩
  | selectDone (s : TaskState) :
      s.mode = .idle → s.done = true →
      TaskStep s ⟨.stopped, s.tickPending, true, s.sweeps⟩
  | finish (s : TaskState) (err : Bool) :
      s.mode = .running →
      TaskStep s ⟨.idle, s.tickPending, s.done, s.sweeps⟩

/-- Environment transitions: the ticker fires (until it is stopped on
shutdown), and CloseConn cancels the context. -/
inductive EnvStep : TaskState → TaskState → Prop
  | tick (s : TaskState) :
      s.mode ≠ .stopped →
      EnvStep s ⟨s.mode, true, s.done, s.sweeps⟩
  | cancel (s : TaskState) :
      EnvStep s ⟨s.mode, s.tickPending, true, s.sweeps⟩

/-- Modelled from the spec: glob-style key pattern matching, with the star
character as a match-any-sequence wildcard; the query engine that uses it
is declared in the Store interface (src/unnamed/part_001) but its
implementation is not under src/. -/
def globMatch : List Char → List Char → Bool
  | [], [] => true
  | [], _ :: _ => false
  | '*' :: ps, [] => globMatch ps []
  | '*' :: ps, c :: cs => globMatch ps (c :: cs) || globMatch ('*' :: ps) cs
  | _ :: _, [] => false
  | p :: ps, c :: cs => p == c && globMatch ps cs
termination_by pat s => (pat.length, s.length)

/-- Modelled from the spec: a record matches a query when its key matches
the glob pattern and the record is not expired-but-unswept (lazy filtering
applies to the query path too). -/
def matchesQuery (pat : String) (now : Int) (r : Record) : Bool :=
  globMatch pat.data r.key.data &&
    !(r.isTTLBased && decide (r.expiresAt ≤ now))

/-- Modelled from the spec: the most-recent-first ordering of query
results, descending by timestamp with ties broken by key. -/
def recLE (a b : Record) : Bool :=
  decide (b.timestamp < a.timestamp) ||
    (a.timestamp == b.timestamp && decide (a.key ≤ b.key))

/-- Modelled from the spec: an absent limit means unbounded. -/
def applyLimit : Option Nat → List Record → List Record
  | none, l => l
  | some n, l => l.take n

/-- Renders one record into the query response element shape
(data, createdAt, expiresAt present exactly for TTL-based records). -/
def renderRecord (r : Record) : QueryResponse :=
  { Data := r.value,
    CreatedAt := formatRFC3339 r.timestamp,
    ExpiresAt := if r.isTTLBased then formatRFC3339 r.expiresAt else "" }

/-- Modelled from the spec: the records matching the pattern, with
expired-but-unswept records excluded. -/
def queryMatches (db : List Record) (now : Int) (pat : String) :
    List Record :=
  db.filter (matchesQuery pat now)

/-- Modelled from the spec: matching records in descending-timestamp
order, ties broken by key. -/
def querySorted (db : List Record) (now : Int) (pat : String) :
    List Record :=
  (queryMatches db now pat).mergeSort recLE

/-- Modelled from the spec: the pagination window — drop the offset
(absent means start at zero), then apply the limit (absent means
unbounded). -/
def queryPage (db : List Record) (now : Int) (pat : String)
    (limit offset : Option Nat) : List Record :=
  applyLimit limit ((querySorted db now pat).drop (offset.getD 0))

/-- Modelled from the spec: GetByQuery of the durable backend — declared in
the Store interface (src/unnamed/part_001 lines 37-45) with no
implementation under src/ — returns the rendered pagination window
together with the total matching count computed before limit and offset
are applied. The optional field-equality filter is not exercised by the
claim and is modelled as absent. -/
def getByQuery (db : List Record) (now : Int) (pat : String)
    (limit offset : Option Nat) : QueryPaginatedResponse :=
  { QueryResponse := (queryPage db now pat limit offset).map renderRecord,
    TotalRecords := (queryMatches db now pat).length }

/-- RedisMeta configuration (src/redis.go). -/
structure RedisMeta where
  Host : String
  Port : String
  Password : String
  DB : Int
deriving DecidableEq, Repr

/-- PgMeta configuration (src/postgres.go); CronInterval is the sweep
interval in seconds, a Go int64. -/
structure PgMeta where
  Host : String
  Port : String
  User : String
  Password : String
  DatabaseName : String
  TableName : String
  SslMode : String
  Timezone : String
  CronInterval : Int
deriving DecidableEq, Repr

/-- StoreType is any in Go (src/unnamed/part_000): the dynamic type of the
configuration payload handed to InitializeStore. -/
inductive StoreType where
  | redisMeta (m : RedisMeta)
  | pgMeta (m : PgMeta)
  | otherValue
deriving DecidableEq, Repr

/-- A constructed backend adapter, by variant. -/
inductive StoreHandle where
  | redisStore
  | pgStore
deriving DecidableEq, Repr

/-- Outcome of a Go call that may return a value, return an error, or
panic. -/
inductive GoResult (α : Type) where
  | ok (a : α)
  | err (e : StoreErr)
  | panicked (msg : String)
deriving DecidableEq, Repr

/-- Embeds the Go pattern of propagating a constructor result. -/
def liftres {α : Type} : Except StoreErr α → GoResult α
  | .ok a => .ok a
  | .error e => .err e

/-- InitializeStore (src/unnamed/part_000 lines 48-66): switch on the
provider string with cases redis and pgsql and default ErrProviderNotFound.
The backend constructors are parameters because their outcomes depend on
external connections; the unchecked Go type assertions meta.(RedisMeta)
and meta.(PgMeta) panic when the dynamic type of meta differs, which the
panicked branches embed. -/
def InitializeStore
    (newRedis : RedisMeta → Except StoreErr StoreHandle)
    (newPg : PgMeta → Except StoreErr StoreHandle)
    (provider : String) (meta : StoreType) : GoResult StoreHandle :=
  if provider = "redis" then
    match meta with
    | .redisMeta m => liftres (newRedis m)
    | _ => .panicked "interface conversion: meta is not RedisMeta"
  else if provider = "pgsql" then
    match meta with
    | .pgMeta m => liftres (newPg m)
    | _ => .panicked "interface conversion: meta is not PgMeta"
  else
    .err .providerNotFound

/-- Embeds Go two-sided-complement int64 arithmetic: the signed 64-bit
value an unbounded integer wraps to. -/
def toInt64 (n : Int) : Int := (n + 2 ^ 63) % 2 ^ 64 - 2 ^ 63

/-- Duration computed at src/postgres.go line 236 for the sweep ticker:
time.Duration(meta.CronInterval) * time.Second, an int64 multiplication by
10^9 nanoseconds with Go wraparound semantics. -/
def cronDurationNanos (cronInterval : Int) : Int :=
  toInt64 (cronInterval * 1000000000)

/-- time.NewTicker panics exactly when the duration is not positive. -/
def newTickerPanics (d : Int) : Bool := decide (d ≤ 0)

/-- Whether NewPostgresStore panics out of the time.NewTicker call at
src/postgres.go line 236 (equally the duplicated call at line 89 of the
earlier revision) for a given configuration. -/
def newPostgresStorePanics (meta : PgMeta) : Bool :=
  newTickerPanics (cronDurationNanos meta.CronInterval)

/-- Sample PgMeta used by concrete witnesses, sweep interval 60 seconds. -/
def pgMetaSample : PgMeta :=
  { Host := "localhost", Port := "5432", User := "u", Password := "p",
    DatabaseName := "db", TableName := "records", SslMode := "disable",
    Timezone := "", CronInterval := 60 }

/-- Sample RedisMeta used by concrete witnesses. -/
def redisMetaSample : RedisMeta :=
  { Host := "localhost", Port := "6379", Password := "p", DB := 0 }

section UpsertLemmas

lemma keysUnique_cons {x : Record} {xs : List Record} :
    keysUnique (x :: xs) ↔ (∀ y ∈ xs, y.key ≠ x.key) ∧ keysUnique xs := by
  simp [keysUnique, List.nodup_cons, eq_comm]

lemma mem_upsert {y r : Record} {xs : List Record}
    (hy : y ∈ upsert r xs) : y ∈ xs ∨ y = r := by
  induction xs with
  | nil => simpa [upsert] using hy
  | cons z zs ihz =>
      by_cases hz : z.key = r.key
      · simp only [upsert, hz, beq_self_eq_true, if_true] at hy
        rcases List.mem_cons.mp hy with h1 | h1
        · right; exact h1
        · left; exact List.mem_cons_of_mem _ h1
      · have hzf : (z.key == r.key) = false := by simp [hz]
        simp only [upsert, hzf, Bool.false_eq_true, if_false] at hy
        rcases List.mem_cons.mp hy with h1 | h1
        · left; exact h1 ▸ List.mem_cons_self _ _
        · rcases ihz h1 with h2 | h2
          · left; exact List.mem_cons_of_mem _ h2
          · right; exact h2

lemma findRecord_upsert_self (db : List Record) (r : Record) :
    findRecord (upsert r db) r.key = some r := by
  induction db with
  | nil => simp [upsert, findRecord]
  | cons x xs ih =>
      by_cases h : x.key = r.key
      · simp [upsert, findRecord, h]
      · have hx : (x.key == r.key) = false := by simp [h]
        simp only [upsert, hx, Bool.false_eq_true, if_false]
        simpa [findRecord, hx] using ih

lemma countP_upsert_self (db : List Record) (r : Record)
    (h : keysUnique db) :
    (upsert r db).countP (fun x => x.key == r.key) = 1 := by
  induction db with
  | nil => simp [upsert, List.countP_cons]
  | cons x xs ih =>
      have hxs : keysUnique xs := (keysUnique_cons.mp h).2
      by_cases hk : x.key = r.key
      · have hnot : ∀ y ∈ xs, y.key ≠ x.key := (keysUnique_cons.mp h).1
        have hzero : xs.countP (fun y => y.key == r.key) = 0 := by
          rw [List.countP_eq_zero]
          intro y hy
          simp only [beq_iff_eq]
          intro hcontra
          exact hnot y hy (by rw [hcontra, hk])
        simp [upsert, hk, List.countP_cons, hzero]
      · have hx : (x.key == r.key) = false := by simp [hk]
        simp only [upsert, hx, Bool.false_eq_true, if_false]
        simp [List.countP_cons, hx, ih hxs]

lemma keysUnique_upsert (db : List Record) (r : Record)
    (h : keysUnique db) : keysUnique (upsert r db) := by
  induction db with
  | nil => simp [upsert, keysUnique]
  | cons x xs ih =>
      have hx1 : ∀ y ∈ xs, y.key ≠ x.key := (keysUnique_cons.mp h).1
      have hxs : keysUnique xs := (keysUnique_cons.mp h).2
      by_cases hk : x.key = r.key
      · have hrx : keysUnique (r :: xs) := by
          refine keysUnique_cons.mpr ⟨?_, hxs⟩
          intro y hy
          rw [← hk]
          exact hx1 y hy
        simpa [upsert, hk] using hrx
      · have hxk : (x.key == r.key) = false := by simp [hk]
        simp only [upsert, hxk, Bool.false_eq_true, if_false]
        refine keysUnique_cons.mpr ⟨?_, ih hxs⟩
        intro y hy
        rcases mem_upsert hy with hmem | hr
        · exact hx1 y hmem
        · rw [hr]; exact fun hc => hk hc.symm

end UpsertLemmas

section OrderLemmas

lemma recLE_eq_true_iff (a b : Record) :
    recLE a b = true ↔
      b.timestamp < a.timestamp ∨
        (a.timestamp = b.timestamp ∧ a.key ≤ b.key) := by
  simp [recLE, Bool.or_eq_true, Bool.and_eq_true, decide_eq_true_iff,
    beq_iff_eq]

lemma recLE_trans (a b c : Record) (h1 : recLE a b = true)
    (h2 : recLE b c = true) : recLE a c = true := by
  rw [recLE_eq_true_iff] at h1 h2 ⊢
  rcases h1 with h1 | ⟨h1, h1k⟩
  · rcases h2 with h2 | ⟨h2, h2k⟩
    · exact Or.inl (by omega)
    · exact Or.inl (by omega)
  · rcases h2 with h2 | ⟨h2, h2k⟩
    · exact Or.inl (by omega)
    · exact Or.inr ⟨by omega, le_trans h1k h2k⟩

lemma recLE_total (a b : Record) : (recLE a b || recLE b a) = true := by
  rcases lt_trichotomy a.timestamp b.timestamp with h | h | h
  · have : recLE b a = true := recLE_eq_true_iff b a |>.mpr (Or.inl h)
    simp [this]
  · rcases le_total a.key b.key with hk | hk
    · have : recLE a b = true :=
        recLE_eq_true_iff a b |>.mpr (Or.inr ⟨h, hk⟩)
      simp [this]
    · have : recLE b a = true :=
        recLE_eq_true_iff b a |>.mpr (Or.inr ⟨h.symm, hk⟩)
      simp [this]
  · have : recLE a b = true := recLE_eq_true_iff a b |>.mpr (Or.inl h)
    simp [this]

lemma queryPage_sublist_sorted (db : List Record) (now : Int)
    (pat : String) (limit offset : Option Nat) :
    (queryPage db now pat limit offset).Sublist (querySorted db now pat) := by
  have hdrop : ((querySorted db now pat).drop (offset.getD 0)).Sublist
      (querySorted db now pat) := List.drop_sublist _ _
  cases limit with
  | none => simpa [queryPage, applyLimit] using hdrop
  | some n =>
      simp only [queryPage, applyLimit]
      exact (List.take_sublist _ _).trans hdrop

lemma queryPage_pairwise (db : List Record) (now : Int) (pat : String)
    (limit offset : Option Nat) :
    (queryPage db now pat limit offset).Pairwise
      (fun a b => b.timestamp < a.timestamp ∨
        (a.timestamp = b.timestamp ∧ a.key ≤ b.key)) := by
  have hsorted : (querySorted db now pat).Pairwise
      (fun a b => recLE a b = true) :=
    List.sorted_mergeSort recLE_trans recLE_total (queryMatches db now pat)
  have hpage := List.Pairwise.sublist
    (queryPage_sublist_sorted db now pat limit offset) hsorted
  exact hpage.imp (fun hab => (recLE_eq_true_iff _ _).mp hab)

end OrderLemmas

/-- C1. Failing input for TTL visibility of the durable backend: a record
written by SetWithTTL at time 0 with duration 5 (so isTTLBased = true and
expiresAt = 0 + 5 = 5, exactly as the claim describes the stored Record) is
expired at now = 10, yet Get still succeeds and returns the value with its
metadata: PgStore.Get never consults the clock (src/postgres.go lines
296-315 contain no expiry check), so the expired-but-unswept record is
returned instead of the key-not-found error the specification requires. -/
theorem ttl_get_ignores_expiry :
    PgStore.SetWithTTL [] "k" "v" 5 0 =
      [{ key := "k", value := "v", isTTLBased := true,
         expiresAt := 5, timestamp := 0 }] ∧
    ({ key := "k", value := "v", isTTLBased := true,
       expiresAt := 5, timestamp := 0 } : Record).expiresAt ≤ 10 ∧
    PgStore.Get
      [{ key := "k", value := "v", isTTLBased := true,
         expiresAt := 5, timestamp := 0 }] "k" =
      .ok ("v", { CreatedAt := formatRFC3339 0,
                  ExpiresAt := formatRFC3339 5 }) := by
  refine ⟨rfl, by decide, rfl⟩

/-- C2 counterexample. Deleting an absent key on the cache backend does not
fail: RedisStore.Delete returns no error on the empty store, in particular
not the key-not-found error the claim requires, so the behaviour is not
identical to the durable backend (which does fail). -/
theorem redis_delete_missing_no_error :
    (RedisStore.Delete [] "k").2 = none ∧
    (RedisStore.Delete [] "k").2 ≠ some (.keyNotFound "k") := by
  exact ⟨rfl, by decide⟩

/-- C2 amended. Delete(key) on the durable backend removes every row with
the key and succeeds exactly when a record (live or expired-but-unswept —
the delete filters on the key alone, never on expiry) physically existed,
failing with a key-not-found error otherwise; on the cache backend Delete
removes the key but always succeeds, returning no error whether or not a
record existed, so the two backends do not behave identically. -/
theorem delete_semantics_amended (db : List Record) (rdb : List RedisEntry)
    (k : String) :
    ((PgStore.Delete db k).2 = none ↔ (∃ r ∈ db, r.key = k)) ∧
    ((PgStore.Delete db k).2 = some (.keyNotFound k) ↔
      ¬ (∃ r ∈ db, r.key = k)) ∧
    (PgStore.Delete db k).1 = db.filter (fun r => !(r.key == k)) ∧
    (RedisStore.Delete rdb k).2 = none ∧
    (RedisStore.Delete rdb k).1 = rdb.filter (fun e => !(e.key == k)) := by
  have hlen : (db.filter (fun r => !(r.key == k))).length = db.length ↔
      ¬ (∃ r ∈ db, r.key = k) := by
    constructor
    · intro hl ⟨r, hr, hk⟩
      have hsub : (db.filter (fun r => !(r.key == k))).Sublist db :=
        List.filter_sublist db
      have heq : db.filter (fun r => !(r.key == k)) = db :=
        List.Sublist.eq_of_length hsub hl
      have hmem : r ∈ db.filter (fun r => !(r.key == k)) := by
        rw [heq]; exact hr
      have := List.of_mem_filter hmem
      simp [hk] at this
    · intro hno
      have : db.filter (fun r => !(r.key == k)) = db := by
        apply List.filter_eq_self.mpr
        intro r hr
        simp only [Bool.not_eq_eq_eq_not, Bool.not_true, beq_eq_false_iff_ne]
        intro hk
        exact hno ⟨r, hr, hk⟩
      rw [this]
  constructor
  · simp only [PgStore.Delete]
    constructor
    · intro h
      by_contra hno
      have := hlen.mpr hno
      simp [this] at h
    · intro hex
      have : ¬ ((db.filter (fun r => !(r.key == k))).length = db.length) := by
        intro hl
        exact (hlen.mp hl) hex
      simp [this]
  refine ⟨?_, rfl, rfl, rfl⟩
  simp only [PgStore.Delete]
  constructor
  · intro h
    by_cases hc : (db.filter (fun r => !(r.key == k))).length = db.length
    · exact hlen.mp hc
    · simp [hc] at h
  · intro hno
    have := hlen.mpr hno
    simp [this]

/-- C2 amended, witness at a store holding one record for the key. -/
theorem delete_semantics_amended_witness :
    ((PgStore.Delete [sampleRec] "k").2 = none ↔
      (∃ r ∈ [sampleRec], r.key = "k")) ∧
    ((PgStore.Delete [sampleRec] "k").2 = some (.keyNotFound "k") ↔
      ¬ (∃ r ∈ [sampleRec], r.key = "k")) ∧
    (PgStore.Delete [sampleRec] "k").1 =
      [sampleRec].filter (fun r => !(r.key == "k")) ∧
    (RedisStore.Delete [] "k").2 = none ∧
    (RedisStore.Delete [] "k").1 =
      ([] : List RedisEntry).filter (fun e => !(e.key == "k")) :=
  delete_semantics_amended [sampleRec] [] "k"

/-- C3. Upsert idempotence of the durable backend: on a key-unique table,
Set(k, v1) followed by Set(k, v2) leaves exactly one record for k, holding
value v2 with the TTL cleared (isTTLBased = false, expiresAt reset to the
zero value) and the second write time; key uniqueness is preserved, and Set
is total — modelled as a pure table transformer because the ON CONFLICT DO
UPDATE write never reports a duplicate-key error, whether or not a record
for k already existed. -/
theorem set_upsert_idempotent (db : List Record) (k v1 v2 : String)
    (t1 t2 : Int) (h : keysUnique db) :
    (PgStore.Set (PgStore.Set db k v1 t1) k v2 t2).countP
        (fun r => r.key == k) = 1 ∧
    findRecord (PgStore.Set (PgStore.Set db k v1 t1) k v2 t2) k =
      some { key := k, value := v2, isTTLBased := false,
             expiresAt := 0, timestamp := t2 } ∧
    keysUnique (PgStore.Set (PgStore.Set db k v1 t1) k v2 t2) := by
  have h1 : keysUnique (PgStore.Set db k v1 t1) :=
    keysUnique_upsert db _ h
  refine ⟨?_, ?_, keysUnique_upsert _ _ h1⟩
  · exact countP_upsert_self (PgStore.Set db k v1 t1)
      { key := k, value := v2, isTTLBased := false,
        expiresAt := 0, timestamp := t2 } h1
  · exact findRecord_upsert_self (PgStore.Set db k v1 t1)
      { key := k, value := v2, isTTLBased := false,
        expiresAt := 0, timestamp := t2 }

/-- C4. Each sweep pass removes exactly the rows with is_ttl_based = true
and expires_at <= now and leaves every other row unchanged (the result is
a sublist of the table: surviving rows are untouched and keep their
order); and in the cleanup loop, a sweep that finishes with an error
transitions back to idle exactly as a successful one — the error is only
logged, never stops the routine, and the pass is retried only when a new
tick is pending (begun sweeps change only by the selectTick transition,
which consumes a pending tick from the idle state). -/
theorem sweep_pass_exact_and_resilient :
    (∀ (db : List Record) (now : Int) (r : Record),
      r ∈ PgStore.cleanExpiredRecords db now ↔
        r ∈ db ∧ ¬ (r.isTTLBased = true ∧ r.expiresAt ≤ now)) ∧
    (∀ (db : List Record) (now : Int),
      (PgStore.cleanExpiredRecords db now).Sublist db) ∧
    (∀ (s : TaskState) (err : Bool) (h : s.mode = .running),
      TaskStep s ⟨.idle, s.tickPending, s.done, s.sweeps⟩) ∧
    (∀ (s s' : TaskState), TaskStep s s' → s.mode = .running →
      s'.mode = .idle ∧ s'.sweeps = s.sweeps ∧ s'.done = s.done) ∧
    (∀ (s s' : TaskState), TaskStep s s' → s'.sweeps ≠ s.sweeps →
      s.mode = .idle ∧ s.tickPending = true ∧ s'.tickPending = false ∧
        s'.sweeps = s.sweeps + 1) := by
  refine ⟨?_, ?_, ?_, ?_, ?_⟩
  · intro db now r
    cases hb : r.isTTLBased <;>
      simp [PgStore.cleanExpiredRecords, List.mem_filter, hb]
  · intro db now
    exact List.filter_sublist db
  · intro s err h
    exact TaskStep.finish s err h
  · intro s s' hstep hrun
    cases hstep with
    | selectTick hidle htick => rw [hidle] at hrun; cases hrun
    | selectDone hidle hdone => rw [hidle] at hrun; cases hrun
    | finish err hr => exact ⟨rfl, rfl, rfl⟩
  · intro s s' hstep hne
    cases hstep with
    | selectTick hidle htick => exact ⟨hidle, htick, rfl, rfl⟩
    | selectDone hidle hdone => exact absurd rfl hne
    | finish err hr => exact absurd rfl hne

/-- C4 witness: a table holding one expired TTL record and one plain
record is swept down to the plain record, and the finish-with-error
transition from a concrete running state lands in idle. -/
theorem sweep_pass_exact_and_resilient_witness :
    (({ key := "p", value := "w", isTTLBased := false,
        expiresAt := 0, timestamp := 0 } : Record) ∈
      PgStore.cleanExpiredRecords
        [{ key := "e", value := "v", isTTLBased := true,
           expiresAt := 5, timestamp := 0 },
         { key := "p", value := "w", isTTLBased := false,
           expiresAt := 0, timestamp := 0 }] 10 ↔
      (({ key := "p", value := "w", isTTLBased := false,
          expiresAt := 0, timestamp := 0 } : Record) ∈
        [({ key := "e", value := "v", isTTLBased := true,
            expiresAt := 5, timestamp := 0 } : Record),
         { key := "p", value := "w", isTTLBased := false,
           expiresAt := 0, timestamp := 0 }] ∧
        ¬ (({ key := "p", value := "w", isTTLBased := false,
              expiresAt := 0, timestamp := 0 } : Record).isTTLBased = true ∧
           ({ key := "p", value := "w", isTTLBased := false,
              expiresAt := 0, timestamp := 0 } : Record).expiresAt ≤ 10))) ∧
    TaskStep ⟨.running, false, false, 1⟩ ⟨.idle, false, false, 1⟩ :=
  ⟨sweep_pass_exact_and_resilient.1 _ 10 _,
   sweep_pass_exact_and_resilient.2.2.1 ⟨.running, false, false, 1⟩ true rfl⟩

/-- C5 counterexample. A tick that becomes ready after the shutdown signal
can still trigger a sweep: starting from a quiescent state, CloseConn
cancels the context (done becomes true), the ticker then fires, and from
the resulting state — where both select cases are ready and a Go select
chooses either — the selectTick transition is enabled and begins a new
sweep pass (sweeps goes from 0 to 1) even though done = true. -/
theorem sweep_after_cancel_trace :
    EnvStep ⟨.idle, false, false, 0⟩ ⟨.idle, false, true, 0⟩ ∧
    EnvStep ⟨.idle, false, true, 0⟩ ⟨.idle, true, true, 0⟩ ∧
    TaskStep ⟨.idle, true, true, 0⟩ ⟨.running, false, true, 1⟩ ∧
    (⟨.idle, true, true, 0⟩ : TaskState).done = true ∧
    (⟨.running, false, true, 1⟩ : TaskState).sweeps =
      (⟨.idle, true, true, 0⟩ : TaskState).sweeps + 1 :=
  ⟨EnvStep.cancel ⟨.idle, false, false, 0⟩,
   EnvStep.tick ⟨.idle, false, true, 0⟩ (by decide),
   TaskStep.selectTick ⟨.idle, true, true, 0⟩ rfl rfl,
   rfl, rfl⟩

/-- C5 amended. Once the routine has observed the shutdown signal by
taking the Done branch (state stopped), it never takes another transition,
so no sweep ever begins after that observation; a sweep already in
progress runs to completion — from running, the only task transition goes
to idle, never to stopped; but between CloseConn issuing the signal and
the routine observing it, a tick that is concurrently pending may
nondeterministically be selected and begin one more sweep, because the Go
select chooses among ready cases without prioritizing Done. -/
theorem sweeper_shutdown_amended :
    (∀ (s s' : TaskState), TaskStep s s' → s.mode = .stopped → False) ∧
    (∀ (s s' : TaskState), TaskStep s s' → s.mode = .running →
      s'.mode = .idle ∧ s'.mode ≠ .stopped) ∧
    (∀ (s s' : TaskState), TaskStep s s' → s'.sweeps ≠ s.sweeps →
      s.mode = .idle ∧ s.tickPending = true) := by
  refine ⟨?_, ?_, ?_⟩
  · intro s s' hstep hstop
    cases hstep with
    | selectTick hidle htick => rw [hidle] at hstop; cases hstop
    | selectDone hidle hdone => rw [hidle] at hstop; cases hstop
    | finish err hr => rw [hr] at hstop; cases hstop
  · intro s s' hstep hrun
    cases hstep with
    | selectTick hidle htick => rw [hidle] at hrun; cases hrun
    | selectDone hidle hdone => rw [hidle] at hrun; cases hrun
    | finish err hr => exact ⟨rfl, fun hc => Mode.noConfusion hc⟩
  · intro s s' hstep hne
    cases hstep with
    | selectTick hidle htick => exact ⟨hidle, htick⟩
    | selectDone hidle hdone => exact absurd rfl hne
    | finish err hr => exact absurd rfl hne

/-- C5 amended, witness: from a concrete running state with the shutdown
signal pending, the sweep completes into idle, not stopped. -/
theorem sweeper_shutdown_amended_witness :
    (⟨.idle, false, true, 2⟩ : TaskState).mode = .idle ∧
    (⟨.idle, false, true, 2⟩ : TaskState).mode ≠ .stopped :=
  sweeper_shutdown_amended.2.1 ⟨.running, false, true, 2⟩
    ⟨.idle, false, true, 2⟩ (TaskStep.finish _ true rfl) rfl

/-- C3 witness at the empty table. -/
theorem set_upsert_idempotent_witness :
    (PgStore.Set (PgStore.Set [] "k" "a" 0) "k" "b" 1).countP
        (fun r => r.key == "k") = 1 ∧
    findRecord (PgStore.Set (PgStore.Set [] "k" "a" 0) "k" "b" 1) "k" =
      some { key := "k", value := "b", isTTLBased := false,
             expiresAt := 0, timestamp := 1 } ∧
    keysUnique (PgStore.Set (PgStore.Set [] "k" "a" 0) "k" "b" 1) :=
  set_upsert_idempotent [] "k" "a" "b" 0 1 (by decide)

/-- C6. Pagination correctness of the pattern query: with N the number of
non-expired records matching the pattern, a request with limit L and
offset O reports TotalRecords = N independent of L and O, returns exactly
min(L, N - O) records (N - O is truncated subtraction, so max(0, N - O)),
the page is the rendering of a window that is ordered most-recent-first by
timestamp with ties broken by key, and every counted record matches the
pattern and is not expired-but-unswept. -/
theorem getByQuery_pagination_correct (db : List Record) (now : Int)
    (pat : String) (L O : Nat) :
    (getByQuery db now pat (some L) (some O)).TotalRecords =
      (queryMatches db now pat).length ∧
    (getByQuery db now pat (some L) (some O)).QueryResponse.length =
      min L ((queryMatches db now pat).length - O) ∧
    (queryPage db now pat (some L) (some O)).Pairwise
      (fun a b => b.timestamp < a.timestamp ∨
        (a.timestamp = b.timestamp ∧ a.key ≤ b.key)) ∧
    (getByQuery db now pat (some L) (some O)).QueryResponse =
      (queryPage db now pat (some L) (some O)).map renderRecord ∧
    (∀ r ∈ queryMatches db now pat,
      globMatch pat.data r.key.data = true ∧
        ¬ (r.isTTLBased = true ∧ r.expiresAt ≤ now)) := by
  refine ⟨rfl, ?_, queryPage_pairwise db now pat (some L) (some O), rfl, ?_⟩
  · simp [getByQuery, queryPage, applyLimit, querySorted,
      List.length_take, List.length_drop, List.length_mergeSort]
  · intro r hr
    have hmem := List.of_mem_filter hr
    simp only [matchesQuery, Bool.and_eq_true, Bool.not_eq_true',
      Bool.and_eq_false_iff] at hmem
    refine ⟨hmem.1, ?_⟩
    rintro ⟨hb, hle⟩
    rcases hmem.2 with h | h
    · rw [hb] at h; cases h
    · rw [decide_eq_false_iff_not] at h
      exact h hle

/-- C7 counterexample. On the cache backend, Get does not return the
Record's creation time: for an entry written (without TTL) at instant 0
and read at instant 100, RedisStore.Get synthesizes CreatedAt from
time.Now() at read time, yielding the rendering of 100, which differs from
the rendering of the entry's actual creation instant 0. -/
theorem redis_createdAt_not_creation_time :
    RedisStore.Get
      [{ key := "k", value := "v", createdAt := 0, expiresAt := none }]
      100 "k" =
      .ok ("v", { CreatedAt := formatRFC3339 100, ExpiresAt := "" }) ∧
    formatRFC3339 100 ≠
      formatRFC3339
        ({ key := "k", value := "v", createdAt := 0,
           expiresAt := none } : RedisEntry).createdAt := by
  exact ⟨rfl, by decide⟩

/-- C7 amended. On the durable backend, Get returns metadata whose
CreatedAt is the rendering of the stored timestamp (the creation or
last-write instant) and whose ExpiresAt is present exactly when the record
is TTL-based. The cache backend synthesizes the same metadata shape, but
from the engine's remaining time-to-live at read time: CreatedAt is the
rendering of the read instant, not of the entry's creation instant, and
ExpiresAt is the rendering of now + TTL (equal to the entry's expiry
instant) exactly when positive time-to-live remains. -/
theorem get_metadata_amended (db : List Record) (k : String) (r : Record)
    (rdb : List RedisEntry) (now : Int) (e : RedisEntry)
    (hpg : findRecord db k = some r)
    (hrd : RedisStore.lookup rdb now k = some e) :
    PgStore.Get db k =
      .ok (r.value,
        { CreatedAt := formatRFC3339 r.timestamp,
          ExpiresAt :=
            if r.isTTLBased then formatRFC3339 r.expiresAt else "" }) ∧
    RedisStore.Get rdb now k =
      .ok (e.value,
        { CreatedAt := formatRFC3339 now,
          ExpiresAt :=
            if 0 < RedisStore.ttlOf e now then
              formatRFC3339 (now + RedisStore.ttlOf e now)
            else "" }) := by
  constructor
  · simp [PgStore.Get, hpg]
  · simp [RedisStore.Get, hrd]

/-- C7 amended, witness: a durable record with a TTL and a cache entry
with remaining TTL 50 read at instant 100. -/
theorem get_metadata_amended_witness :
    (findRecord
      [{ key := "k", value := "v", isTTLBased := true,
         expiresAt := 7, timestamp := 3 }] "k" =
      some { key := "k", value := "v", isTTLBased := true,
             expiresAt := 7, timestamp := 3 }) ∧
    (RedisStore.lookup
      [{ key := "k", value := "v", createdAt := 0,
         expiresAt := some 150 }] 100 "k" =
      some { key := "k", value := "v", createdAt := 0,
             expiresAt := some 150 }) ∧
    PgStore.Get
      [{ key := "k", value := "v", isTTLBased := true,
         expiresAt := 7, timestamp := 3 }] "k" =
      .ok ("v",
        { CreatedAt := formatRFC3339 3,
          ExpiresAt :=
            if ({ key := "k", value := "v", isTTLBased := true,
                  expiresAt := 7, timestamp := 3 } : Record).isTTLBased then
              formatRFC3339 7
            else "" }) ∧
    RedisStore.Get
      [{ key := "k", value := "v", createdAt := 0,
         expiresAt := some 150 }] 100 "k" =
      .ok ("v",
        { CreatedAt := formatRFC3339 100,
          ExpiresAt :=
            if 0 < RedisStore.ttlOf
                { key := "k", value := "v", createdAt := 0,
                  expiresAt := some 150 } 100 then
              formatRFC3339 (100 + RedisStore.ttlOf
                { key := "k", value := "v", createdAt := 0,
                  expiresAt := some 150 } 100)
            else "" }) := by
  refine ⟨by decide, by decide, ?_⟩
  exact get_metadata_amended
    [{ key := "k", value := "v", isTTLBased := true,
       expiresAt := 7, timestamp := 3 }] "k"
    { key := "k", value := "v", isTTLBased := true,
      expiresAt := 7, timestamp := 3 }
    [{ key := "k", value := "v", createdAt := 0, expiresAt := some 150 }]
    100
    { key := "k", value := "v", createdAt := 0, expiresAt := some 150 }
    (by decide) (by decide)

/-- C8. Provider dispatch of the facade: for every provider string outside
the recognized closed set — redis (the cache backend) and pgsql (the
durable backend) — InitializeStore returns no store and the
ErrProviderNotFound error; for a recognized provider with its matching
configuration payload it returns exactly what the backend constructor
produced, a live adapter or that constructor's connection/initialization
error. -/
theorem initializeStore_dispatch
    (newRedis : RedisMeta → Except StoreErr StoreHandle)
    (newPg : PgMeta → Except StoreErr StoreHandle) :
    (∀ (provider : String) (meta : StoreType),
      provider ≠ "redis" → provider ≠ "pgsql" →
      InitializeStore newRedis newPg provider meta =
        .err .providerNotFound) ∧
    (∀ m, InitializeStore newRedis newPg "redis" (.redisMeta m) =
      liftres (newRedis m)) ∧
    (∀ m, InitializeStore newRedis newPg "pgsql" (.pgMeta m) =
      liftres (newPg m)) ∧
    (∀ m h, newRedis m = .ok h →
      InitializeStore newRedis newPg "redis" (.redisMeta m) = .ok h) ∧
    (∀ m e, newRedis m = .error e →
      InitializeStore newRedis newPg "redis" (.redisMeta m) = .err e) ∧
    (∀ m h, newPg m = .ok h →
      InitializeStore newRedis newPg "pgsql" (.pgMeta m) = .ok h) ∧
    (∀ m e, newPg m = .error e →
      InitializeStore newRedis newPg "pgsql" (.pgMeta m) = .err e) := by
  refine ⟨?_, ?_, ?_, ?_, ?_, ?_, ?_⟩
  · intro provider meta h1 h2
    simp [InitializeStore, h1, h2]
  · intro m; simp [InitializeStore]
  · intro m; simp [InitializeStore]
  · intro m h hm; simp [InitializeStore, hm, liftres]
  · intro m e hm; simp [InitializeStore, hm, liftres]
  · intro m h hm; simp [InitializeStore, hm, liftres]
  · intro m e hm; simp [InitializeStore, hm, liftres]

/-- C8 witness: an unrecognized provider string is rejected, and a redis
constructor that succeeds is propagated. -/
theorem initializeStore_dispatch_witness :
    InitializeStore (fun _ => .ok .redisStore) (fun _ => .ok .pgStore)
      "memcached" .otherValue = .err .providerNotFound ∧
    InitializeStore (fun _ => .ok .redisStore) (fun _ => .ok .pgStore)
      "redis" (.redisMeta redisMetaSample) = .ok .redisStore :=
  ⟨(initializeStore_dispatch (fun _ => .ok .redisStore)
      (fun _ => .ok .pgStore)).1 "memcached" .otherValue
      (by decide) (by decide),
   (initializeStore_dispatch (fun _ => .ok .redisStore)
      (fun _ => .ok .pgStore)).2.2.2.1 redisMetaSample .redisStore rfl⟩

/-- C9 counterexample. The claim fails in both directions once the int64
multiplication CronInterval * time.Second overflows: at CronInterval =
9223372037 (>= 1, so the claim says the ticker construction succeeds) the
product wraps to a negative duration and time.NewTicker panics, while at
CronInterval = -9223372037 (<= 0, so the claim says NewPostgresStore
panics) the product wraps to a positive duration and the ticker
construction succeeds. -/
theorem ticker_overflow_counterexample :
    newPostgresStorePanics { pgMetaSample with
      CronInterval := 9223372037 } = true ∧
    (1 : Int) ≤ 9223372037 ∧
    newPostgresStorePanics { pgMetaSample with
      CronInterval := -9223372037 } = false ∧
    (-9223372037 : Int) ≤ 0 := by
  refine ⟨?_, by norm_num, ?_, by norm_num⟩
  · decide
  · decide

/-- C9 amended. NewPostgresStore panics out of time.NewTicker exactly when
the wrapped int64 product CronInterval * 10^9 is not positive; in
particular, within the overflow-free range it behaves as the claim says:
it panics for every CronInterval between -9223372036 and 0, and the ticker
construction succeeds for every CronInterval between 1 and 9223372036.
Beyond that range the int64 multiplication overflows and the outcome
follows the sign of the wrapped product instead. -/
theorem newTicker_panic_amended (meta : PgMeta) :
    (newPostgresStorePanics meta = true ↔
      cronDurationNanos meta.CronInterval ≤ 0) ∧
    (1 ≤ meta.CronInterval → meta.CronInterval ≤ 9223372036 →
      newPostgresStorePanics meta = false) ∧
    (-9223372036 ≤ meta.CronInterval → meta.CronInterval ≤ 0 →
      newPostgresStorePanics meta = true) := by
  have hself : ∀ x : Int, -(2 ^ 63) ≤ x → x < 2 ^ 63 → toInt64 x = x := by
    intro x h1 h2
    unfold toInt64
    have h3 : (0 : Int) ≤ x + 2 ^ 63 := by linarith
    have h4 : x + 2 ^ 63 < 2 ^ 64 := by
      have : (2 : Int) ^ 64 = 2 ^ 63 + 2 ^ 63 := by norm_num
      linarith
    rw [Int.emod_eq_of_lt h3 h4]
    ring
  refine ⟨?_, ?_, ?_⟩
  · simp [newPostgresStorePanics, newTickerPanics]
  · intro hlo hhi
    have hx1 : (1000000000 : Int) ≤ meta.CronInterval * 1000000000 := by
      nlinarith
    have hx2 : meta.CronInterval * 1000000000 ≤ 9223372036000000000 := by
      nlinarith
    have heq : cronDurationNanos meta.CronInterval =
        meta.CronInterval * 1000000000 := by
      unfold cronDurationNanos
      apply hself
      · norm_num at hx1 hx2 ⊢
        linarith
      · norm_num at hx1 hx2 ⊢
        linarith
    simp only [newPostgresStorePanics, newTickerPanics, heq,
      decide_eq_false_iff_not, not_le]
    linarith
  · intro hlo hhi
    have hx1 : (-9223372036000000000 : Int) ≤
        meta.CronInterval * 1000000000 := by
      nlinarith
    have hx2 : meta.CronInterval * 1000000000 ≤ 0 := by nlinarith
    have heq : cronDurationNanos meta.CronInterval =
        meta.CronInterval * 1000000000 := by
      unfold cronDurationNanos
      apply hself
      · norm_num at hx1 hx2 ⊢
        linarith
      · norm_num at hx1 hx2 ⊢
        linarith
    simp only [newPostgresStorePanics, newTickerPanics, heq,
      decide_eq_true_eq]
    linarith

/-- C9 amended, witness: the sample configuration with a 60-second sweep
interval does not panic. -/
theorem newTicker_panic_amended_witness :
    newPostgresStorePanics pgMetaSample = false :=
  (newTicker_panic_amended pgMetaSample).2.1 (by decide) (by decide)

/-- C10. The unchecked type assertions of InitializeStore
(src/unnamed/part_000 lines 48-66): handing provider redis a configuration
whose dynamic type is PgMeta, or provider pgsql one whose dynamic type is
RedisMeta, panics on the interface conversion instead of returning an
error — here shown with backend constructors that would succeed, so the
panic is attributable to the type assertion alone. -/
theorem initializeStore_type_assertion_panics :
    InitializeStore (fun _ => .ok .redisStore) (fun _ => .ok .pgStore)
      "redis" (.pgMeta pgMetaSample) =
      .panicked "interface conversion: meta is not RedisMeta" ∧
    InitializeStore (fun _ => .ok .redisStore) (fun _ => .ok .pgStore)
      "pgsql" (.redisMeta redisMetaSample) =
      .panicked "interface conversion: meta is not PgMeta" := by
  constructor
  · decide
  · decide

end StoreSpec
